import Mathlib

/-!
# SimmGate gateway — verification of the core specification

A shallow embedding, in Lean 4, of the core of the SimmGate chat-completion
gateway: the request data model and its validation, the exact-cache key
builder (SHA-256 fingerprint over a canonical JSON serialization), the
in-process TTL cache, the retry engine (status classification, Retry-After
parsing, capped exponential backoff with full jitter), the SSE stream
decoder, and the chat orchestrator's non-streaming path.

Machine integers are modelled as `Nat`/`Int` with explicit reduction
modulo `2 ^ 32` where the code relies on 32-bit wraparound (SHA-256).
Go `float32` parameters that are only compared against constant bounds
(`temperature`, `top_p`) are modelled as `ℚ`; where the standard library
formats such a number into JSON text the formatter is taken as an explicit
function parameter, since both sides of every statement proved here use
the same formatter.  Wall-clock instants and durations are `Int`
nanoseconds.  External library calls that the repository does not define
(HTTP date parsing, JSON decoding of cached bytes) are likewise explicit
function parameters of the embedding.
-/

/-! ## Bytes and UTF-8 -/

/-- UTF-8 encoding of a single Unicode code point, as byte values. -/
def utf8Bytes (c : Nat) : List Nat :=
  if c < 0x80 then [c]
  else if c < 0x800 then [0xC0 + c / 64, 0x80 + c % 64]
  else if c < 0x10000 then [0xE0 + c / 4096, 0x80 + c / 64 % 64, 0x80 + c % 64]
  else [0xF0 + c / 262144, 0x80 + c / 4096 % 64, 0x80 + c / 64 % 64, 0x80 + c % 64]

/-- The UTF-8 bytes of a string (Go strings are byte slices in UTF-8). -/
def strBytes (s : String) : List Nat := s.data.flatMap fun c => utf8Bytes c.toNat

/-- Go `len(s)` — the number of UTF-8 bytes of a string. -/
def goLen (s : String) : Nat := (strBytes s).length

/-- `strings.TrimSpace`: drop leading and trailing whitespace (kept as a
structural definition so that it evaluates inside the kernel). -/
def trimSpace (s : String) : String :=
  String.mk (((s.data.dropWhile Char.isWhitespace).reverse.dropWhile
    Char.isWhitespace).reverse)

/-- `bytes.HasPrefix` / `String.startsWith`, structurally. -/
def strStartsWith (s pre : String) : Bool := pre.data.isPrefixOf s.data

/-! ## SHA-256 (`crypto/sha256`), over `Nat` bytes with mod-`2^32` words -/

def M32 : Nat := 4294967296

def add32 (a b : Nat) : Nat := (a + b) % M32

/-- Rotate a 32-bit word right by `n` bits (for words `< 2^32`). -/
def rotr32 (x n : Nat) : Nat := x / 2 ^ n + x % 2 ^ n * 2 ^ (32 - n)

/-- Logical shift right by `n` bits. -/
def shr32 (x n : Nat) : Nat := x / 2 ^ n

def xor3 (a b c : Nat) : Nat := Nat.xor (Nat.xor a b) c

def sigma0 (x : Nat) : Nat := xor3 (rotr32 x 7) (rotr32 x 18) (shr32 x 3)

def sigma1 (x : Nat) : Nat := xor3 (rotr32 x 17) (rotr32 x 19) (shr32 x 10)

def bigSigma0 (x : Nat) : Nat := xor3 (rotr32 x 2) (rotr32 x 13) (rotr32 x 22)

def bigSigma1 (x : Nat) : Nat := xor3 (rotr32 x 6) (rotr32 x 11) (rotr32 x 25)

def chFn (e f g : Nat) : Nat := Nat.xor (Nat.land e f) (Nat.land (M32 - 1 - e) g)

def majFn (a b c : Nat) : Nat :=
  Nat.xor (Nat.xor (Nat.land a b) (Nat.land a c)) (Nat.land b c)

def sha256K : List Nat :=
  [1116352408, 1899447441, 3049323471, 3921009573,
   961987163, 1508970993, 2453635748, 2870763221,
   3624381080, 310598401, 607225278, 1426881987,
   1925078388, 2162078206, 2614888103, 3248222580,
   3835390401, 4022224774, 264347078, 604807628,
   770255983, 1249150122, 1555081692, 1996064986,
   2554220882, 2821834349, 2952996808, 3210313671,
   3336571891, 3584528711, 113926993, 338241895,
   666307205, 773529912, 1294757372, 1396182291,
   1695183700, 1986661051, 2177026350, 2456956037,
   2730485921, 2820302411, 3259730800, 3345764771,
   3516065817, 3600352804, 4094571909, 275423344,
   430227734, 506948616, 659060556, 883997877,
   958139571, 1322822218, 1537002063, 1747873779,
   1955562222, 2024104815, 2227730452, 2361852424,
   2428436474, 2756734187, 3204031479, 3329325298]

/-- The eight 32-bit words of a SHA-256 chaining state. -/
structure Hash8 where
  a : Nat
  b : Nat
  c : Nat
  d : Nat
  e : Nat
  f : Nat
  g : Nat
  h : Nat

def sha256Init : Hash8 :=
  ⟨1779033703, 3144134277, 1013904242, 2773480762,
   1359893119, 2600822924, 528734635, 1541459225⟩

/-- Group bytes into 32-bit big-endian words. -/
def toWords : List Nat → List Nat
  | b0 :: b1 :: b2 :: b3 :: rest =>
      (((b0 * 256 + b1) * 256 + b2) * 256 + b3) :: toWords rest
  | _ => []

/-- Extend the 16 block words by `n` further schedule words. -/
def extendSchedule (w : Array Nat) : Nat → Array Nat
  | 0 => w
  | n + 1 =>
    let w := extendSchedule w n
    let i := w.size
    let v := (sigma1 (w.getD (i - 2) 0) + w.getD (i - 7) 0 +
              sigma0 (w.getD (i - 15) 0) + w.getD (i - 16) 0) % M32
    w.push v

def roundStep (w : Array Nat) (st : Hash8) (i : Nat) : Hash8 :=
  let t1 := (st.h + bigSigma1 st.e + chFn st.e st.f st.g + sha256K.getD i 0 + w.getD i 0) % M32
  let t2 := (bigSigma0 st.a + majFn st.a st.b st.c) % M32
  ⟨(t1 + t2) % M32, st.a, st.b, st.c, (st.d + t1) % M32, st.e, st.f, st.g⟩

def rounds (w : Array Nat) (st : Hash8) : Nat → Hash8
  | 0 => st
  | n + 1 => roundStep w (rounds w st n) n

/-- One SHA-256 compression over a 64-byte block. -/
def compress (st : Hash8) (block : List Nat) : Hash8 :=
  let w := extendSchedule (Array.mk (toWords block)) 48
  let r := rounds w st 64
  ⟨add32 st.a r.a, add32 st.b r.b, add32 st.c r.c, add32 st.d r.d,
   add32 st.e r.e, add32 st.f r.f, add32 st.g r.g, add32 st.h r.h⟩

def chunksAux : Nat → List Nat → List (List Nat)
  | 0, _ => []
  | _ + 1, [] => []
  | fuel + 1, l => l.take 64 :: chunksAux fuel (l.drop 64)

/-- Split a byte list into 64-byte blocks. -/
def chunks (l : List Nat) : List (List Nat) := chunksAux l.length l

/-- SHA-256 padding: `0x80`, zeros, then the 8-byte big-endian bit length. -/
def shaPad (msg : List Nat) : List Nat :=
  let len := msg.length
  let zeros := (64 - (len + 9) % 64) % 64
  let bits := len * 8
  msg ++ [0x80] ++ List.replicate zeros 0 ++
    [bits / 2 ^ 56 % 256, bits / 2 ^ 48 % 256, bits / 2 ^ 40 % 256, bits / 2 ^ 32 % 256,
     bits / 2 ^ 24 % 256, bits / 2 ^ 16 % 256, bits / 2 ^ 8 % 256, bits % 256]

/-- The four big-endian bytes of a 32-bit word. -/
def wordBytes (w : Nat) : List Nat :=
  [w / 2 ^ 24 % 256, w / 2 ^ 16 % 256, w / 2 ^ 8 % 256, w % 256]

/-- The SHA-256 digest (32 bytes) of a byte list. -/
def sha256 (msg : List Nat) : List Nat :=
  let final := (chunks (shaPad msg)).foldl compress sha256Init
  wordBytes final.a ++ wordBytes final.b ++ wordBytes final.c ++ wordBytes final.d ++
  wordBytes final.e ++ wordBytes final.f ++ wordBytes final.g ++ wordBytes final.h

/-- The sixteen lowercase hexadecimal digits (`encoding/hex` alphabet). -/
def hexChars : List Char := "0123456789abcdef".data

/-- `hex.EncodeToString`: two lowercase hex digits per byte. -/
def hexEncode (bs : List Nat) : String :=
  String.mk (bs.flatMap fun b => [hexChars.getD (b / 16 % 16) '0', hexChars.getD (b % 16) '0'])

set_option maxRecDepth 100000

/-- SHA-256 test vector: the digest of `"abc"`. -/
theorem sha256_abc :
    hexEncode (sha256 (strBytes "abc")) =
      "ba7816bf8f01cfea414140de5dae2223b00361a396177a9cb410ff61f20015ad" := by
  decide

/-! ## Data model (`internal/llm/types.go`)

`ChatMessage`, `ChatRequest` and `ChatRequest.Validate` are translated from
the `llm` package.  `temperature` and `top_p` are Go `float32` values used
only in order comparisons and in JSON formatting, modelled as `ℚ`;
`max_tokens` is a Go `int`, modelled as `Int`. -/

def RoleSystem : String := "system"

def RoleUser : String := "user"

def RoleAssistant : String := "assistant"

structure ChatMessage where
  role : String
  content : String
deriving DecidableEq

structure ChatRequest where
  model : String
  messages : List ChatMessage
  temperature : ℚ
  topP : ℚ
  maxTokens : Int
  stop : List String
  stream : Bool
deriving DecidableEq

/-- The distinct error returns of `ChatRequest.Validate`, in source order. -/
inductive ValidateErr where
  | modelRequired
  | messagesRequired
  | invalidRole (i : Nat)
  | contentRequired (i : Nat)
  | temperatureRange
  | topPRange
deriving DecidableEq

/-- The per-message loop of `ChatRequest.Validate`: first offending message. -/
def validateMessages : Nat → List ChatMessage → Option ValidateErr
  | _, [] => none
  | i, m :: rest =>
    if m.role ≠ RoleSystem ∧ m.role ≠ RoleUser ∧ m.role ≠ RoleAssistant then
      some (.invalidRole i)
    else if m.content = "" ∧ m.role ≠ RoleSystem then
      some (.contentRequired i)
    else validateMessages (i + 1) rest

/-- `ChatRequest.Validate`, returning the first error or `none` on success.
Note the source compares `r.Model` against `""` without trimming, and
never inspects `MaxTokens`. -/
def ChatRequest.Validate (r : ChatRequest) : Option ValidateErr :=
  if r.model = "" then some .modelRequired
  else if r.messages = [] then some .messagesRequired
  else
    match validateMessages 0 r.messages with
    | some e => some e
    | none =>
      if r.temperature < 0 ∨ r.temperature > 2 then some .temperatureRange
      else if r.topP < 0 ∨ r.topP > 1 then some .topPRange
      else none

structure Usage where
  promptTokens : Int
  completionTokens : Int
  totalTokens : Int
deriving DecidableEq

structure ChatChoice where
  index : Int
  message : ChatMessage
  finishReason : String
deriving DecidableEq

structure ChatResponse where
  id : String
  created : Int
  model : String
  choices : List ChatChoice
  usage : Option Usage
deriving DecidableEq

structure StreamChunk where
  index : Int
  delta : String
  finishReason : String
deriving DecidableEq

/-! ## JSON encoding (`encoding/json` on the request structs)

`encoding/json` writes struct fields in declaration order; a field tagged
`omitempty` is dropped when its value is the zero value of its type.  The
string escaper follows Go's default (HTML-escaping) encoder.  The decimal
formatter for `float32` fields is a parameter `fr`; every statement below
either does not depend on it or uses it identically on both sides. -/

/-- Go JSON escaping of one character (default encoder, HTML escaping on). -/
def jsonEscapeChar (c : Char) : List Char :=
  if c = '"' then ['\\', '"']
  else if c = '\\' then ['\\', '\\']
  else if c = '\n' then ['\\', 'n']
  else if c = '\r' then ['\\', 'r']
  else if c = '\t' then ['\\', 't']
  else if c = '<' then "\\u003c".data
  else if c = '>' then "\\u003e".data
  else if c = '&' then "\\u0026".data
  else if c.toNat < 0x20 then
    ('\\' :: 'u' :: '0' :: '0' ::
      [hexChars.getD (c.toNat / 16 % 16) '0', hexChars.getD (c.toNat % 16) '0'])
  else if c.toNat = 0x2028 then "\\u2028".data
  else if c.toNat = 0x2029 then "\\u2029".data
  else [c]

/-- A JSON string literal, Go style. -/
def jsonStr (s : String) : String :=
  "\"" ++ String.mk (s.data.flatMap jsonEscapeChar) ++ "\""

/-- `{"role":…,"content":…}` for one message. -/
def jsonMessage (m : ChatMessage) : String :=
  "\x7b\"role\":" ++ jsonStr m.role ++ ",\"content\":" ++ jsonStr m.content ++ "\x7d"

/-- A JSON array of messages. -/
def jsonMessages (ms : List ChatMessage) : String :=
  "[" ++ String.intercalate "," (ms.map jsonMessage) ++ "]"

/-- A JSON array of strings (the `stop` field). -/
def jsonStrings (ss : List String) : String :=
  "[" ++ String.intercalate "," (ss.map jsonStr) ++ "]"

/-- The optional `temperature` fragment: empty exactly when the value is the
`float32` zero value (the `omitempty` rule). -/
def tempFragment (fr : ℚ → String) (r : ChatRequest) : String :=
  if r.temperature = 0 then "" else ",\"temperature\":" ++ fr r.temperature

def topPFragment (fr : ℚ → String) (r : ChatRequest) : String :=
  if r.topP = 0 then "" else ",\"top_p\":" ++ fr r.topP

def maxTokensFragment (r : ChatRequest) : String :=
  if r.maxTokens = 0 then "" else ",\"max_tokens\":" ++ toString r.maxTokens

def stopFragment (r : ChatRequest) : String :=
  if r.stop = [] then "" else ",\"stop\":" ++ jsonStrings r.stop

def streamFragment (r : ChatRequest) : String :=
  if r.stream = false then "" else ",\"stream\":true"

/-- `json.Marshal` on a `ChatRequest` (fields `model`, `messages`,
`temperature,omitempty`, `top_p,omitempty`, `max_tokens,omitempty`,
`stop,omitempty`, `stream,omitempty`, in declaration order). -/
def marshalChatRequest (fr : ℚ → String) (r : ChatRequest) : String :=
  "\x7b\"model\":" ++ jsonStr r.model ++ ",\"messages\":" ++ jsonMessages r.messages ++
    tempFragment fr r ++ topPFragment fr r ++ maxTokensFragment r ++
    stopFragment r ++ streamFragment r ++ "\x7d"

/-- `providerChatRequest` carries the same fields and JSON tags as
`ChatRequest`; the client copies every field and forces `Stream`.  This is
the body `json.Marshal` produces for the provider wire. -/
def marshalProviderChatRequest (fr : ℚ → String) (r : ChatRequest) (stream : Bool) : String :=
  marshalChatRequest fr { r with stream := stream }

/-! ## Key builder (`internal/cache/key_builder.go`) -/

structure ExactCacheKey where
  userID : String
  modelID : String
  versionID : String
  hash : String
deriving DecidableEq

/-- `ExactCacheKey.String()`: `exact:<USER_ID>:<MODEL_ID>:<VERSION_ID>:<HASH_HEX>`. -/
def ExactCacheKey.string (k : ExactCacheKey) : String :=
  "exact:" ++ k.userID ++ ":" ++ k.modelID ++ ":" ++ k.versionID ++ ":" ++ k.hash

/-- `BuildExactCacheKeyFromChatRequest`.  `json.Marshal` cannot fail on this
struct, so the Go error return is always `nil` and the build is total. -/
def BuildExactCacheKeyFromChatRequest (fr : ℚ → String) (req : ChatRequest)
    (userID versionID : String) : ExactCacheKey :=
  let modelID := trimSpace req.model
  let body := marshalChatRequest fr req
  let normalized := "model:" ++ modelID ++ "|body:" ++ body
  let hash := hexEncode (sha256 (strBytes normalized))
  { userID := trimSpace userID, modelID := modelID, versionID := trimSpace versionID,
    hash := hash }

/-! ## In-process exact cache (`internal/cache/memory.go`)

State is the `items` map; wall-clock reads (`time.Now()`) become explicit
`Int` nanosecond arguments.  The reader/writer lock and the background
sweeper are concurrency plumbing with no effect on the sequential
Set/Get semantics modelled here.  Both operations always return a `nil`
error; the error slot is kept in `Get`'s result to mirror the interface. -/

structure MemEntry where
  value : List Nat
  expiresAt : Int
deriving DecidableEq

/-- The `items` map of a `MemoryExactCache`. -/
def MemItems : Type := String → Option MemEntry

/-- `MemoryExactCache.Set`: `ttl <= 0` deletes; otherwise stores a copy of
the bytes with `expiresAt = now + ttl`. -/
def MemoryExactCache.set (items : MemItems) (key : String) (value : List Nat)
    (ttl now : Int) : MemItems :=
  if ttl ≤ 0 then
    fun k => if k = key then none else items k
  else
    fun k => if k = key then some { value := value, expiresAt := now + ttl } else items k

/-- `MemoryExactCache.Get`: `(value, hit, err)` plus the updated map (an
entry found expired is deleted under the writer lock).  `now.After(e)` is
the strict comparison `now > e`.  The error is always `nil` (`none`). -/
def MemoryExactCache.get (items : MemItems) (key : String) (now : Int) :
    (Option (List Nat) × Bool × Option Unit) × MemItems :=
  match items key with
  | none => ((none, false, none), items)
  | some entry =>
    if now > entry.expiresAt then
      ((none, false, none), fun k => if k = key then none else items k)
    else
      ((some entry.value, true, none), items)

/-! ## Retry-After parsing (`internal/llm/retry.go`, `parseRetryAfter`)

`strconv.Atoi` is translated below (`goAtoi`); `http.ParseTime` is an
external format parser, taken as a parameter `parseTime` returning the
parsed instant in `Int` nanoseconds.  `now` is the instant at which
`time.Until` is evaluated.  All durations are `Int` nanoseconds. -/

def nsPerSecond : Int := 1000000000

/-- Digits value of a non-empty all-digit character list. -/
def digitsToNat (cs : List Char) : Nat :=
  cs.foldl (fun acc c => acc * 10 + (c.toNat - '0'.toNat)) 0

/-- `strconv.Atoi`: optional sign, then one or more decimal digits, the
whole string; values outside the `int64` range are an error (`none`). -/
def goAtoi (s : String) : Option Int :=
  let cs := s.data
  let (sign, digits) : Int × List Char :=
    match cs with
    | '-' :: rest => (-1, rest)
    | '+' :: rest => (1, rest)
    | rest => (1, rest)
  if digits = [] then none
  else if digits.all Char.isDigit then
    let v : Int := sign * (digitsToNat digits : Int)
    if v < -(2 ^ 63) ∨ v ≥ 2 ^ 63 then none else some v
  else none

/-- `parseRetryAfter` on the `Retry-After` header value (Go's `Header.Get`
returns `""` when the header is absent).  Integer seconds are tried first
(only a positive count is used, capped at 300 seconds); then an HTTP date,
whose positive `time.Until` is capped at 5 minutes; otherwise `0`. -/
def parseRetryAfter (parseTime : String → Option Int) (now : Int)
    (retryAfter : String) : Int :=
  if retryAfter = "" then 0
  else
    let dateBranch : Int :=
      match parseTime retryAfter with
      | some t =>
        let duration := t - now
        if duration > 0 then min duration (5 * 60 * nsPerSecond) else 0
      | none => 0
    match goAtoi (trimSpace retryAfter) with
    | some seconds =>
      if seconds > 0 then (min seconds 300) * nsPerSecond
      else dateBranch
    | none => dateBranch

/-! ## Backoff (`computeBackoff`)

`rand.Float64()` yields a value in `[0, 1)`, modelled as a rational
parameter; the `float64` products are exact over the range that matters
(below the 60 s cap every intermediate fits well inside 53 bits, and above
it the cap applies in both readings), so the arithmetic is carried out
exactly: for the draw `r ∈ [0, 1)` the value `time.Duration(r * maxBackoff)`
is the floor `r.num * maxBackoff / r.den`, written with integer division. -/

def baseBackoffDefault : Int := 100000000

def maxBackoffAllowed : Int := 60 * nsPerSecond

/-- `computeBackoff base attempt r`: full-jitter exponential backoff.
`base` is in nanoseconds; `r` models the `rand.Float64()` draw. -/
def computeBackoff (base : Int) (attempt : Nat) (r : ℚ) : Int :=
  let base := if base ≤ 0 then baseBackoffDefault else base
  let attempt := if attempt > 10 then 10 else attempt
  let exponentialBackoff : Int := base * (2 : Int) ^ attempt
  let maxBackoff := if exponentialBackoff > maxBackoffAllowed then maxBackoffAllowed
                    else exponentialBackoff
  r.num * maxBackoff / (r.den : Int)

/-- `shouldRetryStatus`: retry on no-response, 429, 408 and 5xx. -/
def shouldRetryStatus (status : Nat) : Bool :=
  if status = 0 then true
  else if status = 429 then true
  else if status = 408 then true
  else if 500 ≤ status ∧ status ≤ 599 then true
  else false

/-! ## Retry engine (`doWithRetry`), as a trace-producing function

One attempt's outcome abstracts the `do` closure: either an error
(classified by `errors.Is` on the context sentinels and by
`isTransientNetError`, both taken as booleans of the outcome) or an HTTP
response with its status and `Retry-After` header.  The engine is run with
a never-cancelled context (cancellation is outside the claims below); the
trace records, in order, each attempt, each body close, each body drain
(the event exists in the alphabet although the source never drains), and
each sleep with its origin and duration. -/

inductive DoOutcome where
  | err (isCtx : Bool) (isTransient : Bool)
  | resp (status : Nat) (retryAfterHeader : String)
deriving DecidableEq

inductive REvent where
  | attempt (i : Nat)
  | drainBody (i : Nat)
  | closeBody (i : Nat)
  | sleepRetryAfter (i : Nat) (d : Int)
  | sleepBackoff (i : Nat) (d : Int)
deriving DecidableEq

inductive RResult where
  | ok (status : Nat)
  | errReturned
  | exhausted
deriving DecidableEq

/-- The attempt loop of `doWithRetry`.  `fuel` is `maxAttempts - attempt`,
which is positive on entry; the structure mirrors the Go loop: classify,
close the body of a retryable response, honor a positive Retry-After when
attempts remain, otherwise fall through to computed backoff, and break on
the last attempt. -/
def retryLoop (parseTime : String → Option Int) (now base : Int)
    (outcomes : Nat → DoOutcome) (rand : Nat → ℚ) (maxAttempts : Nat) :
    Nat → Nat → List REvent × RResult
  | 0, _ => ([], .exhausted)
  | fuel + 1, attempt =>
    match outcomes attempt with
    | .err true _ => ([.attempt attempt], .errReturned)
    | .err false false => ([.attempt attempt], .errReturned)
    | .err false true =>
      if attempt = maxAttempts - 1 then ([.attempt attempt], .exhausted)
      else
        let backoff := computeBackoff base attempt (rand attempt)
        let next := retryLoop parseTime now base outcomes rand maxAttempts fuel (attempt + 1)
        (.attempt attempt :: .sleepBackoff attempt backoff :: next.1, next.2)
    | .resp status header =>
      if ¬ shouldRetryStatus status then ([.attempt attempt], .ok status)
      else
        let retryAfter := parseRetryAfter parseTime now header
        if retryAfter > 0 ∧ attempt < maxAttempts - 1 then
          let next := retryLoop parseTime now base outcomes rand maxAttempts fuel (attempt + 1)
          (.attempt attempt :: .closeBody attempt ::
            .sleepRetryAfter attempt retryAfter :: next.1, next.2)
        else if attempt = maxAttempts - 1 then
          ([.attempt attempt, .closeBody attempt], .exhausted)
        else
          let backoff := computeBackoff base attempt (rand attempt)
          let next := retryLoop parseTime now base outcomes rand maxAttempts fuel (attempt + 1)
          (.attempt attempt :: .closeBody attempt ::
            .sleepBackoff attempt backoff :: next.1, next.2)

/-- `doWithRetry`: up to `MaxRetries + 1` attempts (at least one). -/
def doWithRetry (parseTime : String → Option Int) (now base : Int) (maxRetries : Int)
    (outcomes : Nat → DoOutcome) (rand : Nat → ℚ) : List REvent × RResult :=
  let maxAttempts := if maxRetries + 1 < 1 then 1 else (maxRetries + 1).toNat
  retryLoop parseTime now base outcomes rand maxAttempts maxAttempts 0

/-! ## Client configuration (`internal/llm/config.go`) -/

structure Config where
  baseURL : String
  apiKey : String
  upstreamTimeout : Int
  maxRetries : Int
  baseBackoff : Int
  maxIdleConns : Int
  maxIdleConnsPerHost : Int
deriving DecidableEq

/-- `Config.WithDefaults`: trim trailing slashes from `BaseURL` and apply
the documented defaults to every non-positive numeric field. -/
def Config.WithDefaults (c : Config) : Config :=
  { c with
    baseURL := String.mk ((c.baseURL.data.reverse.dropWhile (fun ch => ch = '/')).reverse)
    upstreamTimeout := if c.upstreamTimeout ≤ 0 then 30 * nsPerSecond else c.upstreamTimeout
    maxRetries := if c.maxRetries ≤ 0 then 2 else c.maxRetries
    baseBackoff := if c.baseBackoff ≤ 0 then baseBackoffDefault else c.baseBackoff
    maxIdleConns := if c.maxIdleConns ≤ 0 then 100 else c.maxIdleConns
    maxIdleConnsPerHost := if c.maxIdleConnsPerHost ≤ 0 then 100 else c.maxIdleConnsPerHost }

/-- `Config.Validate`: required fields only. -/
def Config.ValidateCfg (c : Config) : Bool :=
  c.baseURL ≠ "" ∧ c.apiKey ≠ ""

/-! ## SSE stream decoder (`ChatCompletionStream`, decode loop)

The reader loop is modelled over the sequence of successful line reads
followed by a terminator (`EOF` or another read error); `json.Unmarshal`
of a data payload into a `providerStreamChunk` is the external parameter
`parse`.  The derived context is never cancelled here (cancellation is
outside claim C3), so the `select` guards are the fall-through branches.
The output list is the closed channel's contents in emission order. -/

structure ProviderStreamChoice where
  index : Int
  deltaRole : String
  deltaContent : String
  finishReason : String
deriving DecidableEq

structure ProviderStreamChunk where
  id : String
  object : String
  created : Int
  model : String
  choices : List ProviderStreamChoice
deriving DecidableEq

inductive ReadTerm where
  | eof
  | readErr
deriving DecidableEq

inductive StreamErr where
  | read
  | unmarshal
deriving DecidableEq

inductive StreamRes where
  | chunk (c : StreamChunk)
  | err (e : StreamErr)
deriving DecidableEq

/-- The per-choice emission test: a choice with empty `delta.content` and
empty `finish_reason` is skipped, every other choice becomes a
`StreamChunk`. -/
def emitChoice (ch : ProviderStreamChoice) : Option StreamRes :=
  if ch.deltaContent = "" ∧ ch.finishReason = "" then none
  else some (.chunk { index := ch.index, delta := ch.deltaContent,
                      finishReason := ch.finishReason })

/-- The SSE decode loop: lines are trimmed; empty and non-`data: ` lines
are skipped; `[DONE]` closes; a payload that fails to parse emits one
unmarshal error and closes; otherwise each choice is filtered through
`emitChoice`.  At the end of the reads, `EOF` closes normally and any
other read error emits one read error and closes. -/
def decodeLoop (parse : String → Option ProviderStreamChunk) :
    List String → ReadTerm → List StreamRes
  | [], .eof => []
  | [], .readErr => [.err .read]
  | line :: rest, term =>
    let line := trimSpace line
    if line = "" then decodeLoop parse rest term
    else if ¬ strStartsWith line "data: " then decodeLoop parse rest term
    else
      let payload := trimSpace (line.drop 6)
      if payload = "[DONE]" then []
      else
        match parse payload with
        | none => [.err .unmarshal]
        | some chunk =>
          chunk.choices.filterMap emitChoice ++ decodeLoop parse rest term

/-! ## Upstream client pre-flight (`ChatCompletion`) and the orchestrator
(`internal/handlers/chat.go`, non-streaming path)

The unary client's pre-flight checks run before any HTTP exchange: nil
request, `Validate`, the 512 KiB per-message guard, marshal, the 2 MiB
total guard.  Everything at and after the HTTP dispatch is abstracted as
the `dispatch` value; that the pre-flight rejects without consulting it is
exactly the statement that no upstream exchange happens. -/

def maxMessageSize : Nat := 512 * 1024

def maxRequestSize : Nat := 2 * 1024 * 1024

inductive ClientErr where
  | nilRequest
  | invalidRequest (e : ValidateErr)
  | messageTooLarge (i : Nat)
  | requestTooLarge
  | upstream
deriving DecidableEq

/-- Index of the first message whose content exceeds 512 KiB. -/
def firstOversize (i : Nat) : List ChatMessage → Option Nat
  | [] => none
  | m :: rest =>
    if goLen m.content > maxMessageSize then some i else firstOversize (i + 1) rest

/-- `client.ChatCompletion` up to the HTTP dispatch. -/
def clientChatCompletion (fr : ℚ → String)
    (dispatch : ClientErr ⊕ ChatResponse) (req : Option ChatRequest) :
    ClientErr ⊕ ChatResponse :=
  match req with
  | none => .inl .nilRequest
  | some r =>
    match r.Validate with
    | some e => .inl (.invalidRequest e)
    | none =>
      match firstOversize 0 r.messages with
      | some i => .inl (.messageTooLarge i)
      | none =>
        let bodyBytes := strBytes (marshalProviderChatRequest fr r false)
        if bodyBytes.length > maxRequestSize then .inl .requestTooLarge
        else dispatch

/-- What the handler writes: a `{"error":…}` object or a JSON response. -/
inductive HBody where
  | errorCode (code : String)
  | json (resp : ChatResponse)
deriving DecidableEq

/-- Side effects of the non-streaming handler, in order. -/
inductive HEvent where
  | cacheGet (key : String)
  | llmCall
  | cacheSet (key : String)
deriving DecidableEq

structure HOut where
  status : Nat
  body : HBody
  events : List HEvent
deriving DecidableEq

/-- `ChatHandler.ChatCompletion`, non-streaming path, after a successful
JSON decode of the body (`req.Stream = false`; the streaming branch is a
separate function in the source).  `get` abstracts the `ExactCache`
backend (`(bytes, hit, err)`), `unmarshalResp` the `json.Unmarshal` of
cached bytes, `marshalResp` the `json.Marshal` of the fresh response, and
`dispatch` the client's HTTP layer.  Cache faults are logged and ignored;
a hit with undecodable bytes falls through to the upstream call. -/
def handleNonStream (fr : ℚ → String)
    (get : String → Option (List Nat) × Bool × Option Unit)
    (unmarshalResp : Option (List Nat) → Option ChatResponse)
    (marshalResp : ChatResponse → Option (List Nat))
    (dispatch : ClientErr ⊕ ChatResponse)
    (req : ChatRequest) (userHeader versionCfg : String) : HOut :=
  let userID := if userHeader = "" then "anon" else userHeader
  let versionID := if versionCfg = "" then "v1" else versionCfg
  let key := BuildExactCacheKeyFromChatRequest fr req userID versionID
  let cacheKey := key.string
  let (cachedBytes, hit, _cacheErr) := get cacheKey
  let cachedResp := if hit then unmarshalResp cachedBytes else none
  match cachedResp with
  | some resp => { status := 200, body := .json resp, events := [.cacheGet cacheKey] }
  | none =>
    match clientChatCompletion fr dispatch (some req) with
    | .inl _ =>
      { status := 502, body := .errorCode "upstream_error",
        events := [.cacheGet cacheKey, .llmCall] }
    | .inr resp =>
      match marshalResp resp with
      | some _bytes =>
        { status := 200, body := .json resp,
          events := [.cacheGet cacheKey, .llmCall, .cacheSet cacheKey] }
      | none =>
        { status := 200, body := .json resp,
          events := [.cacheGet cacheKey, .llmCall] }

/-! ## Claim theorems -/

/-- C2: on the in-process backend, `Set(k, v, ttl)` with `ttl > 0` followed
by `Get(k)` strictly before the ttl has elapsed returns the stored bytes
with `hit = true` and a `nil` error; a `Get(k)` strictly after the ttl has
elapsed returns `hit = false`. -/
theorem C2_memory_set_get (items : MemItems) (key : String) (value : List Nat)
    (ttl t t' : Int) (httl : 0 < ttl) :
    (t' - t < ttl →
      (MemoryExactCache.get (MemoryExactCache.set items key value ttl t) key t').1 =
        (some value, true, none)) ∧
    (t' - t > ttl →
      (MemoryExactCache.get (MemoryExactCache.set items key value ttl t) key t').1 =
        (none, false, none)) := by
  have hset : MemoryExactCache.set items key value ttl t key =
      some { value := value, expiresAt := t + ttl } := by
    unfold MemoryExactCache.set
    rw [if_neg (by omega)]
    simp
  constructor <;> intro hcmp <;>
    simp only [MemoryExactCache.get, hset]
  · rw [if_neg (by omega)]
  · rw [if_pos (by omega)]

/-- C2 witness: a concrete set/get round trip at ttl 5, read at 3 and 9. -/
theorem C2_memory_set_get_witness :
    (MemoryExactCache.get (MemoryExactCache.set (fun _ => none) "k" [7, 8] 5 0) "k" 3).1 =
        (some [7, 8], true, none) ∧
    (MemoryExactCache.get (MemoryExactCache.set (fun _ => none) "k" [7, 8] 5 0) "k" 9).1 =
        (none, false, none) :=
  ⟨(C2_memory_set_get (fun _ => none) "k" [7, 8] 5 0 3 (by norm_num)).1 (by norm_num),
   (C2_memory_set_get (fun _ => none) "k" [7, 8] 5 0 9 (by norm_num)).2 (by norm_num)⟩

/-- C5: the computed backoff lies in `[0, min(b * 2^min(a,10), 60s)]`, where
`b` is the configured base when positive and 100 ms otherwise; the exponent
is capped at 10 before exponentiation. -/
theorem C5_computeBackoff_bounds (base : Int) (attempt : Nat) (r : ℚ)
    (h0 : 0 ≤ r) (h1 : r < 1) :
    0 ≤ computeBackoff base attempt r ∧
      computeBackoff base attempt r ≤
        min ((if 0 < base then base else baseBackoffDefault) * (2 : Int) ^ min attempt 10)
          maxBackoffAllowed := by
  unfold computeBackoff
  set b : Int := if base ≤ 0 then baseBackoffDefault else base with hb
  have hbeq : b = if 0 < base then base else baseBackoffDefault := by
    rw [hb]; split_ifs <;> omega
  have hbpos : 0 < b := by
    rw [hb]; split_ifs with h
    · unfold baseBackoffDefault; omega
    · omega
  set a : Nat := if attempt > 10 then 10 else attempt with ha
  have haeq : a = min attempt 10 := by rw [ha]; split_ifs <;> omega
  set m : Int := b * (2 : Int) ^ a with hm
  have hmpos : 0 < m := by positivity
  set mb : Int := if m > maxBackoffAllowed then maxBackoffAllowed else m with hmb
  have hmbeq : mb = min m maxBackoffAllowed := by rw [hmb]; split_ifs <;> omega
  have hmbpos : 0 < mb := by
    rw [hmbeq]
    unfold maxBackoffAllowed nsPerSecond
    omega
  have hden : (0 : Int) < (r.den : Int) := by
    exact_mod_cast Nat.pos_of_ne_zero r.den_nz
  have hnum0 : 0 ≤ r.num := Rat.num_nonneg.mpr h0
  have hnumden : r.num < (r.den : Int) := by
    have hdq : (0 : ℚ) < (r.den : ℚ) := by exact_mod_cast hden
    have hq : (r.num : ℚ) < (r.den : ℚ) := by
      have hr : (r.num : ℚ) / (r.den : ℚ) < 1 := by
        rw [Rat.num_div_den r]; exact h1
      exact (div_lt_one hdq).mp hr
    exact_mod_cast hq
  constructor
  · show (0 : Int) ≤ r.num * mb / (r.den : Int)
    exact Int.ediv_nonneg (Int.mul_nonneg hnum0 (le_of_lt hmbpos)) (le_of_lt hden)
  · rw [← hbeq, ← haeq, ← hm, ← hmbeq]
    show r.num * mb / (r.den : Int) ≤ mb
    calc r.num * mb / (r.den : Int) ≤ (r.den : Int) * mb / (r.den : Int) :=
          Int.ediv_le_ediv hden
            (mul_le_mul_of_nonneg_right (le_of_lt hnumden) (le_of_lt hmbpos))
      _ = mb := Int.mul_ediv_cancel_left mb (ne_of_gt hden)

/-- C5 witness: unconfigured base, attempt 3, jitter draw 1/2. -/
theorem C5_computeBackoff_bounds_witness :
    0 ≤ computeBackoff 0 3 (1 / 2) ∧
      computeBackoff 0 3 (1 / 2) ≤
        min ((if (0 : Int) < 0 then 0 else baseBackoffDefault) * (2 : Int) ^ min 3 10)
          maxBackoffAllowed :=
  C5_computeBackoff_bounds 0 3 (1 / 2) (by norm_num) (by norm_num)

/-- The message loop accepts exactly the lists whose members all have a
known role and, outside `system`, non-empty content. -/
theorem validateMessages_eq_none (ms : List ChatMessage) : ∀ i,
    validateMessages i ms = none ↔
      ∀ m ∈ ms, (m.role = RoleSystem ∨ m.role = RoleUser ∨ m.role = RoleAssistant) ∧
        (m.content ≠ "" ∨ m.role = RoleSystem) := by
  induction ms with
  | nil => intro i; simp [validateMessages]
  | cons m rest ih =>
    intro i
    unfold validateMessages
    split_ifs with h1 h2
    · simp only [List.mem_cons]
      constructor
      · intro h; exact absurd h (by simp)
      · intro h
        rcases (h m (Or.inl rfl)).1 with hr | hr | hr <;>
          [exact absurd hr h1.1; exact absurd hr h1.2.1; exact absurd hr h1.2.2]
    · simp only [List.mem_cons]
      constructor
      · intro h; exact absurd h (by simp)
      · intro h
        rcases (h m (Or.inl rfl)).2 with hc | hc
        · exact absurd h2.1 hc
        · exact absurd hc h2.2
    · rw [ih (i + 1)]
      simp only [List.mem_cons]
      constructor
      · intro h mm hmm
        rcases hmm with rfl | hmm
        · constructor
          · by_contra hn
            push_neg at hn
            exact h1 ⟨hn.1, hn.2.1, hn.2.2⟩
          · by_contra hn
            push_neg at hn
            exact h2 ⟨hn.1, hn.2⟩
        · exact h mm hmm
      · intro h mm hmm; exact h mm (Or.inr hmm)

/-- C8 counterexample: a request with a whitespace-only model and negative
`max_tokens` is accepted by `ChatRequest.Validate`, although the claimed
specification predicate (model non-empty after trimming, `max_tokens`
non-negative) rejects it. -/
theorem C8_validate_counterexample :
    ChatRequest.Validate
        { model := " ", messages := [{ role := "user", content := "x" }],
          temperature := 1, topP := 1, maxTokens := -1, stop := [], stream := false } = none ∧
      ¬ (trimSpace " " ≠ "" ∧ (0 : Int) ≤ -1) := by
  constructor
  · decide
  · intro h
    exact absurd h.2 (by norm_num)

/-- C8 (amended): `ChatRequest.Validate` accepts a request iff the model is
non-empty **without trimming**, the messages are non-empty, every role is
one of system/user/assistant, content is non-empty unless the role is
system, `temperature ∈ [0,2]` and `top_p ∈ [0,1]`.  `max_tokens` is never
inspected: the validator's verdict is invariant under changing it. -/
theorem C8_validate_iff (r : ChatRequest) :
    (r.Validate = none ↔
      (r.model ≠ "" ∧ r.messages ≠ [] ∧
        (∀ m ∈ r.messages,
          (m.role = RoleSystem ∨ m.role = RoleUser ∨ m.role = RoleAssistant) ∧
          (m.content ≠ "" ∨ m.role = RoleSystem)) ∧
        0 ≤ r.temperature ∧ r.temperature ≤ 2 ∧ 0 ≤ r.topP ∧ r.topP ≤ 1)) ∧
    (∀ mt : Int, ChatRequest.Validate { r with maxTokens := mt } = r.Validate) := by
  constructor
  · unfold ChatRequest.Validate
    rcases hvm : validateMessages 0 r.messages with _ | e
    · have hmsgs := (validateMessages_eq_none r.messages 0).mp hvm
      dsimp only
      split_ifs with h1 h2 h3 h4
      · simp only [reduceCtorEq, false_iff]
        intro h; exact h.1 h1
      · simp only [reduceCtorEq, false_iff]
        intro h; exact h.2.1 h2
      · simp only [reduceCtorEq, false_iff]
        intro h
        rcases h3 with h3 | h3
        · exact absurd h.2.2.2.1 (not_le.mpr h3)
        · exact absurd h.2.2.2.2.1 (not_le.mpr h3)
      · simp only [reduceCtorEq, false_iff]
        intro h
        rcases h4 with h4 | h4
        · exact absurd h.2.2.2.2.2.1 (not_le.mpr h4)
        · exact absurd h.2.2.2.2.2.2 (not_le.mpr h4)
      · push_neg at h3 h4
        simp only [true_iff]
        exact ⟨h1, h2, hmsgs, h3.1, h3.2, h4.1, h4.2⟩
    · dsimp only
      split_ifs with h1 h2
      · simp only [reduceCtorEq, false_iff]
        intro h; exact h.1 h1
      · simp only [reduceCtorEq, false_iff]
        intro h; exact h.2.1 h2
      · simp only [reduceCtorEq, false_iff]
        intro h
        have hok := (validateMessages_eq_none r.messages 0).mpr h.2.2.1
        rw [hvm] at hok
        exact absurd hok (by simp)
  · intro mt; rfl

/-- C8 witness: the amended characterization evaluated on a concrete
accepted request with negative `max_tokens`. -/
theorem C8_validate_iff_witness :
    ChatRequest.Validate
        { model := "gpt-4", messages := [{ role := "user", content := "hi" }],
          temperature := 2, topP := 1, maxTokens := -7, stop := [], stream := false } =
      none :=
  (C8_validate_iff _).1.mpr
    ⟨by decide, by decide, by decide, by norm_num, by norm_num, by norm_num, by norm_num⟩

/-- C4: `parseRetryAfter` yields `min(n, 300)` seconds for a positive
integer header value `n`; `min(time until date, 5 minutes)` for a
non-integer value that parses as a future HTTP date; and `0` for a zero or
negative integer, a date not in the future, or an unparsable value — and a
zero wait makes the retry engine fall through to computed backoff, whose
sleep follows the body close in the trace. -/
theorem C4_parseRetryAfter_cases (pt : String → Option Int) (now : Int) (hdr : String) :
    (∀ n : Int, goAtoi (trimSpace hdr) = some n → 0 < n →
      parseRetryAfter pt now hdr = min n 300 * nsPerSecond) ∧
    (∀ t : Int, hdr ≠ "" → goAtoi (trimSpace hdr) = none → pt hdr = some t → 0 < t - now →
      parseRetryAfter pt now hdr = min (t - now) (5 * 60 * nsPerSecond)) ∧
    (∀ n : Int, goAtoi (trimSpace hdr) = some n → n ≤ 0 → pt hdr = none →
      parseRetryAfter pt now hdr = 0) ∧
    (∀ t : Int, goAtoi (trimSpace hdr) = none → pt hdr = some t → t - now ≤ 0 →
      parseRetryAfter pt now hdr = 0) ∧
    (goAtoi (trimSpace hdr) = none → pt hdr = none → parseRetryAfter pt now hdr = 0) ∧
    (∀ (base : Int) (maxRetries : Int) (outcomes : Nat → DoOutcome) (rand : Nat → ℚ)
        (status : Nat),
      parseRetryAfter pt now hdr = 0 → 1 ≤ maxRetries →
      shouldRetryStatus status = true → outcomes 0 = .resp status hdr →
      ∃ rest,
        (doWithRetry pt now base maxRetries outcomes rand).1 =
          .attempt 0 :: .closeBody 0 ::
            .sleepBackoff 0 (computeBackoff base 0 (rand 0)) :: rest) := by
  have hblank : ∀ n : Int, goAtoi (trimSpace hdr) = some n → hdr ≠ "" := by
    intro n hn he
    rw [he] at hn
    have hnone : (none : Option Int) = some n := hn
    exact Option.noConfusion hnone
  refine ⟨?_, ?_, ?_, ?_, ?_, ?_⟩
  · intro n hn hpos
    unfold parseRetryAfter
    rw [if_neg (hblank n hn), hn]
    simp only [if_pos hpos]
  · intro t hne hn ht hfut
    unfold parseRetryAfter
    rw [if_neg hne, hn, ht]
    simp only [if_pos hfut]
  · intro n hn hnp hpt
    unfold parseRetryAfter
    rw [if_neg (hblank n hn), hn, hpt]
    simp only [if_neg (not_lt.mpr hnp)]
  · intro t hn ht hpast
    by_cases hne : hdr = ""
    · unfold parseRetryAfter
      rw [if_pos hne]
    · unfold parseRetryAfter
      rw [if_neg hne, hn, ht]
      simp only [if_neg (not_lt.mpr hpast)]
  · intro hn hpt
    by_cases hne : hdr = ""
    · unfold parseRetryAfter
      rw [if_pos hne]
    · unfold parseRetryAfter
      rw [if_neg hne, hn, hpt]
  · intro base maxRetries outcomes rand status hzero hmr hretry hout
    unfold doWithRetry
    have hma : (if maxRetries + 1 < 1 then 1 else (maxRetries + 1).toNat) =
        (maxRetries + 1).toNat := by
      rw [if_neg (by omega)]
    rw [hma]
    obtain ⟨k, hk⟩ : ∃ k, (maxRetries + 1).toNat = k + 2 := by
      refine ⟨(maxRetries + 1).toNat - 2, ?_⟩
      omega
    rw [hk]
    unfold retryLoop
    rw [hout]
    simp only [hretry, not_true, if_neg, hzero]
    rw [if_neg (by simp), if_neg (by omega)]
    exact ⟨_, rfl⟩

/-- C4 witness: header `"42"` (integer), a date 90 s in the future for an
unparsable header, the zero header `"0"`, a past date, garbage, and the
fall-through to computed backoff for a retryable 503 carrying `"0"`. -/
theorem C4_parseRetryAfter_cases_witness :
    parseRetryAfter (fun _ => none) 0 "42" = 42 * nsPerSecond ∧
    parseRetryAfter (fun s => if s = "D" then some (90 * nsPerSecond) else none) 0 "D" =
      90 * nsPerSecond ∧
    parseRetryAfter (fun _ => none) 0 "0" = 0 ∧
    parseRetryAfter (fun s => if s = "P" then some (-5) else none) 0 "P" = 0 ∧
    parseRetryAfter (fun _ => none) 0 "zzz" = 0 ∧
    ∃ rest,
      (doWithRetry (fun _ => none) 0 100 2 (fun _ => .resp 503 "0") (fun _ => 0)).1 =
        .attempt 0 :: .closeBody 0 :: .sleepBackoff 0 (computeBackoff 100 0 0) :: rest := by
  refine ⟨?_, ?_, ?_, ?_, ?_, ?_⟩
  · have h := (C4_parseRetryAfter_cases (fun _ => none) 0 "42").1 42 (by decide) (by norm_num)
    rw [h]; norm_num
  · have h := (C4_parseRetryAfter_cases (fun s => if s = "D" then some (90 * nsPerSecond) else none)
      0 "D").2.1 (90 * nsPerSecond) (by decide) (by decide) (by simp) (by unfold nsPerSecond; norm_num)
    rw [h]; unfold nsPerSecond; norm_num
  · exact (C4_parseRetryAfter_cases (fun _ => none) 0 "0").2.2.1 0 (by decide) (by norm_num) rfl
  · exact (C4_parseRetryAfter_cases (fun s => if s = "P" then some (-5) else none) 0 "P").2.2.2.1
      (-5) (by decide) (by simp) (by norm_num)
  · exact (C4_parseRetryAfter_cases (fun _ => none) 0 "zzz").2.2.2.2.1 (by decide) rfl
  · exact (C4_parseRetryAfter_cases (fun _ => none) 0 "0").2.2.2.2.2 100 2
      (fun _ => .resp 503 "0") (fun _ => 0) 503 (by decide) (by norm_num) (by decide) rfl

/-- C3: the SSE decode loop skips lines whose trimmed form is not prefixed
by `data: `; closes the sequence normally (no further results) on a
`[DONE]` payload and on EOF; emits, for each parsed choice, exactly the
chunks whose `delta.content` or `finish_reason` is non-empty, in order;
and on a non-EOF read error emits exactly one error result and closes. -/
theorem C3_decodeLoop (parse : String → Option ProviderStreamChunk) :
    (∀ (line : String) (rest : List String) (term : ReadTerm),
      ¬ strStartsWith (trimSpace line) "data: " →
      decodeLoop parse (line :: rest) term = decodeLoop parse rest term) ∧
    (∀ (line : String) (rest : List String) (term : ReadTerm),
      strStartsWith (trimSpace line) "data: " →
      trimSpace ((trimSpace line).drop 6) = "[DONE]" →
      decodeLoop parse (line :: rest) term = []) ∧
    (decodeLoop parse [] .eof = []) ∧
    (decodeLoop parse [] .readErr = [.err .read]) ∧
    (∀ (line : String) (rest : List String) (term : ReadTerm)
        (chunk : ProviderStreamChunk),
      strStartsWith (trimSpace line) "data: " →
      trimSpace ((trimSpace line).drop 6) ≠ "[DONE]" →
      parse (trimSpace ((trimSpace line).drop 6)) = some chunk →
      decodeLoop parse (line :: rest) term =
        chunk.choices.filterMap emitChoice ++ decodeLoop parse rest term) ∧
    (∀ (line : String) (rest : List String) (term : ReadTerm),
      strStartsWith (trimSpace line) "data: " →
      trimSpace ((trimSpace line).drop 6) ≠ "[DONE]" →
      parse (trimSpace ((trimSpace line).drop 6)) = none →
      decodeLoop parse (line :: rest) term = [.err .unmarshal]) ∧
    (∀ ch : ProviderStreamChoice,
      (emitChoice ch = none ↔ (ch.deltaContent = "" ∧ ch.finishReason = "")) ∧
      (ch.deltaContent ≠ "" ∨ ch.finishReason ≠ "" →
        emitChoice ch =
          some (.chunk { index := ch.index, delta := ch.deltaContent,
                         finishReason := ch.finishReason }))) := by
  have hdata : ∀ line : String, strStartsWith (trimSpace line) "data: " = true →
      ¬ trimSpace line = "" := by
    intro line hsw he
    rw [he] at hsw
    exact absurd hsw (by decide)
  refine ⟨?_, ?_, rfl, rfl, ?_, ?_, ?_⟩
  · intro line rest term hns
    conv_lhs => unfold decodeLoop
    by_cases he : trimSpace line = ""
    · rw [if_pos he]
    · rw [if_neg he, if_pos hns]
  · intro line rest term hsw hdone
    conv_lhs => unfold decodeLoop
    rw [if_neg (hdata line hsw), if_neg (by simpa using hsw), if_pos hdone]
  · intro line rest term chunk hsw hdone hparse
    conv_lhs => unfold decodeLoop
    rw [if_neg (hdata line hsw), if_neg (by simpa using hsw), if_neg hdone, hparse]
  · intro line rest term hsw hdone hparse
    conv_lhs => unfold decodeLoop
    rw [if_neg (hdata line hsw), if_neg (by simpa using hsw), if_neg hdone, hparse]
  · intro ch
    constructor
    · unfold emitChoice
      split_ifs with h
      · simp only [true_iff]; exact h
      · simp only [reduceCtorEq, false_iff]; exact h
    · intro h
      unfold emitChoice
      rw [if_neg (by tauto)]

/-- The parse oracle used by the C3 witness: `"{}"` parses to a two-choice
chunk whose second choice is empty; everything else fails. -/
def c3ParseW : String → Option ProviderStreamChunk := fun s =>
  if s = "{}" then
    some { id := "", object := "", created := 0, model := "",
           choices := [{ index := 0, deltaRole := "", deltaContent := "hel",
                         finishReason := "" },
                       { index := 0, deltaRole := "", deltaContent := "",
                         finishReason := "" }] }
  else none

/-- C3 witness: concrete runs of the decode loop — a skipped comment line,
a `[DONE]` close, EOF and read-error termination, a parsed two-choice
chunk with the empty choice skipped, and a failed unmarshal. -/
theorem C3_decodeLoop_witness :
    decodeLoop c3ParseW [": comment"] .eof = decodeLoop c3ParseW [] .eof ∧
    decodeLoop c3ParseW ["data: [DONE]", "data: x"] .eof = [] ∧
    decodeLoop c3ParseW [] .eof = [] ∧
    decodeLoop c3ParseW [] .readErr = [.err .read] ∧
    decodeLoop c3ParseW ["data: {}"] .eof =
      [.chunk { index := 0, delta := "hel", finishReason := "" }] ∧
    decodeLoop c3ParseW ["data: ?"] .eof = [.err .unmarshal] := by
  have hchunk : c3ParseW (trimSpace ((trimSpace "data: {}").drop 6)) =
      some { id := "", object := "", created := 0, model := "",
             choices := [{ index := 0, deltaRole := "", deltaContent := "hel",
                           finishReason := "" },
                         { index := 0, deltaRole := "", deltaContent := "",
                           finishReason := "" }] } := by decide
  refine ⟨?_, ?_, ?_, ?_, ?_, ?_⟩
  · exact (C3_decodeLoop c3ParseW).1 ": comment" [] .eof (by decide)
  · exact (C3_decodeLoop c3ParseW).2.1 "data: [DONE]" ["data: x"] .eof (by decide) (by decide)
  · exact (C3_decodeLoop c3ParseW).2.2.1
  · exact (C3_decodeLoop c3ParseW).2.2.2.1
  · rw [(C3_decodeLoop c3ParseW).2.2.2.2.1 "data: {}" [] .eof _ (by decide) (by decide) hchunk]
    decide
  · exact (C3_decodeLoop c3ParseW).2.2.2.2.2.1 "data: ?" [] .eof (by decide) (by decide)
      (by decide)

/-- With fuel remaining, every iteration of the retry loop opens its trace
with its own attempt event. -/
theorem retryLoop_attempt_head (pt : String → Option Int) (now base : Int)
    (outcomes : Nat → DoOutcome) (rand : Nat → ℚ) (maxAttempts fuel attempt : Nat)
    (hfuel : 1 ≤ fuel) :
    ∃ rest res,
      retryLoop pt now base outcomes rand maxAttempts fuel attempt =
        (.attempt attempt :: rest, res) := by
  obtain ⟨f, rfl⟩ : ∃ f, fuel = f + 1 := ⟨fuel - 1, by omega⟩
  unfold retryLoop
  rcases hout : outcomes attempt with ⟨c, t⟩ | ⟨status, header⟩
  · cases c <;> cases t <;> dsimp only <;>
      first
        | exact ⟨[], _, rfl⟩
        | (split_ifs <;> first | exact ⟨[], _, rfl⟩ | exact ⟨_, _, rfl⟩)
  · dsimp only
    split_ifs <;>
      first
        | exact ⟨[], _, rfl⟩
        | exact ⟨[.closeBody attempt], _, rfl⟩
        | exact ⟨_, _, rfl⟩

/-- Kind test used to count attempts in a retry trace. -/
def isAttempt : REvent → Bool
  | .attempt _ => true
  | _ => false

/-- The configuration of the C10 counterexample: `MaxRetries = 1` is left
unchanged by `WithDefaults`. -/
def c10Cfg : Config :=
  { baseURL := "http://h", apiKey := "k", upstreamTimeout := 0,
    maxRetries := 1, baseBackoff := 0, maxIdleConns := 0, maxIdleConnsPerHost := 0 }

/-- C10 counterexample: a valid config with `MaxRetries = 1` passes
`WithDefaults` unchanged, and on persistently retryable 503s the engine
makes exactly two attempts — not the claimed minimum of three. -/
theorem C10_two_attempts_counterexample :
    (c10Cfg.WithDefaults).maxRetries = 1 ∧
    Config.ValidateCfg c10Cfg.WithDefaults = true ∧
    (doWithRetry (fun _ => none) 0 (c10Cfg.WithDefaults).baseBackoff
        (c10Cfg.WithDefaults).maxRetries (fun _ => .resp 503 "") (fun _ => 0)).2 =
      .exhausted ∧
    ((doWithRetry (fun _ => none) 0 (c10Cfg.WithDefaults).baseBackoff
        (c10Cfg.WithDefaults).maxRetries (fun _ => .resp 503 "") (fun _ => 0)).1.countP
      isAttempt) = 2 := by
  refine ⟨by decide, by decide, by decide, by decide⟩

/-- C10 (amended): `WithDefaults` maps every non-positive `MaxRetries` to 2,
and always yields `MaxRetries ≥ 1`, so a client built by `NewClient` makes
at least **two** attempts on persistently retryable failures; configuring
exactly one attempt is impossible through the public constructor, but
`MaxRetries = 1` (two attempts) is, so three attempts are not guaranteed. -/
theorem C10_withDefaults_retry_budget (c : Config) :
    (c.maxRetries ≤ 0 → (c.WithDefaults).maxRetries = 2) ∧
    1 ≤ (c.WithDefaults).maxRetries ∧
    (∀ (pt : String → Option Int) (now : Int) (outcomes : Nat → DoOutcome)
        (rand : Nat → ℚ),
      (∀ i, ∃ status header,
        outcomes i = .resp status header ∧ shouldRetryStatus status = true) →
      .attempt 1 ∈ (doWithRetry pt now (c.WithDefaults).baseBackoff
          (c.WithDefaults).maxRetries outcomes rand).1) := by
  have h2 : 1 ≤ (c.WithDefaults).maxRetries := by
    unfold Config.WithDefaults
    dsimp only
    split_ifs with h <;> omega
  refine ⟨?_, h2, ?_⟩
  · intro h
    unfold Config.WithDefaults
    dsimp only
    rw [if_pos h]
  · intro pt now outcomes rand hp
    obtain ⟨st, hd, hout, hret⟩ := hp 0
    unfold doWithRetry
    rw [if_neg (by omega)]
    obtain ⟨j, hj⟩ : ∃ j, ((c.WithDefaults).maxRetries + 1).toNat = j + 2 :=
      ⟨((c.WithDefaults).maxRetries + 1).toNat - 2, by omega⟩
    rw [hj]
    unfold retryLoop
    rw [hout]
    dsimp only
    rw [if_neg (by simp [hret])]
    obtain ⟨rest1, res1, hnext⟩ :=
      retryLoop_attempt_head pt now (c.WithDefaults).baseBackoff outcomes rand
        (j + 2) (j + 1) 1 (by omega)
    split_ifs with hra hlast
    · simp [hnext]
    · exact absurd hlast (by omega)
    · simp [hnext]

/-- C10 witness: the amended statement at a concrete config with
`MaxRetries = 0` (defaulted to 2) and persistent 503s: the second attempt
occurs. -/
theorem C10_withDefaults_retry_budget_witness :
    ((({ baseURL := "b", apiKey := "k", upstreamTimeout := 0, maxRetries := 0,
         baseBackoff := 0, maxIdleConns := 0,
         maxIdleConnsPerHost := 0 } : Config).WithDefaults).maxRetries = 2) ∧
    .attempt 1 ∈ (doWithRetry (fun _ => none) 0
        ((({ baseURL := "b", apiKey := "k", upstreamTimeout := 0, maxRetries := 0,
             baseBackoff := 0, maxIdleConns := 0,
             maxIdleConnsPerHost := 0 } : Config).WithDefaults).baseBackoff)
        ((({ baseURL := "b", apiKey := "k", upstreamTimeout := 0, maxRetries := 0,
             baseBackoff := 0, maxIdleConns := 0,
             maxIdleConnsPerHost := 0 } : Config).WithDefaults).maxRetries)
        (fun _ => .resp 503 "") (fun _ => 0)).1 :=
  ⟨(C10_withDefaults_retry_budget _).1 (by norm_num),
   (C10_withDefaults_retry_budget _).2.2 (fun _ => none) 0 (fun _ => .resp 503 "")
     (fun _ => 0) (fun _ => ⟨503, "", rfl, by decide⟩)⟩

/-- The outcome sequence of the C6 failing input: a 503 with a body, then
a 200. -/
def c6Outcomes : Nat → DoOutcome := fun i => if i = 0 then .resp 503 "" else .resp 200 ""

/-- C6: at the failing input (503 then 200, `MaxRetries = 1`), the engine
closes the retryable response's body and retries, but the trace contains
no drain event between the two attempts — the body is closed without
being read to EOF, contradicting the drain-and-close requirement. -/
theorem C6_close_without_drain :
    (doWithRetry (fun _ => none) 0 100000000 1 c6Outcomes (fun _ => 0)).2 = .ok 200 ∧
    (doWithRetry (fun _ => none) 0 100000000 1 c6Outcomes (fun _ => 0)).1 =
      [.attempt 0, .closeBody 0, .sleepBackoff 0 0, .attempt 1] ∧
    .drainBody 0 ∉ (doWithRetry (fun _ => none) 0 100000000 1 c6Outcomes (fun _ => 0)).1 := by
  refine ⟨by decide, by decide, by decide⟩

/-- Every byte of a word decomposition is below 256. -/
theorem wordBytes_lt (w : Nat) : ∀ b ∈ wordBytes w, b < 256 := by
  intro b hb
  simp only [wordBytes, List.mem_cons, List.not_mem_nil, or_false] at hb
  rcases hb with rfl | rfl | rfl | rfl <;> omega

/-- A SHA-256 digest is exactly 32 bytes. -/
theorem sha256_length (msg : List Nat) : (sha256 msg).length = 32 := by
  simp [sha256, wordBytes]

/-- Every digest byte is below 256. -/
theorem sha256_bytes_lt (msg : List Nat) : ∀ b ∈ sha256 msg, b < 256 := by
  intro b hb
  simp only [sha256, List.mem_append] at hb
  rcases hb with ((((((h | h) | h) | h) | h) | h) | h) | h <;> exact wordBytes_lt _ b h

/-- A hex digit lookup lands in the hex alphabet. -/
theorem hexCharsGetD_mem (n : Nat) : hexChars.getD n '0' ∈ hexChars := by
  rw [List.getD_eq_getElem?_getD]
  rcases h : hexChars[n]? with _ | c
  · simp only [Option.getD_none]
    decide
  · simp only [Option.getD_some]
    obtain ⟨hlt, rfl⟩ := List.getElem?_eq_some_iff.mp h
    exact List.getElem_mem hlt

/-- Hex encoding yields two characters per byte. -/
theorem hexEncode_length (bs : List Nat) : (hexEncode bs).length = 2 * bs.length := by
  unfold hexEncode
  rw [String.length_mk]
  induction bs with
  | nil => rfl
  | cons b rest ih =>
    simp only [List.flatMap_cons, List.length_append, List.length_cons,
      List.length_nil] at ih ⊢
    omega

/-- Every character of a hex encoding is a lowercase hex digit. -/
theorem hexEncode_mem (bs : List Nat) : ∀ c ∈ (hexEncode bs).data, c ∈ hexChars := by
  intro c hc
  unfold hexEncode at hc
  simp only [List.mem_flatMap, List.mem_cons, List.not_mem_nil, or_false] at hc
  obtain ⟨b, _, hcb⟩ := hc
  rcases hcb with rfl | rfl <;> exact hexCharsGetD_mem _

/-- The colon never occurs in a hex encoding. -/
theorem hexEncode_count_colon (bs : List Nat) : (hexEncode bs).data.count ':' = 0 :=
  List.count_eq_zero.mpr fun h => absurd (hexEncode_mem bs ':' h) (by decide)

/-- The C7 counterexample request (contents are irrelevant to the shape of
the key). -/
def c7Req : ChatRequest :=
  { model := "m", messages := [], temperature := 0, topP := 0, maxTokens := 0,
    stop := [], stream := false }

/-- C7 counterexample: with `user_id = "a:b"` the key string contains five
colons, so splitting it on `':'` yields six fields, not the claimed five. -/
theorem C7_five_fields_counterexample :
    ((BuildExactCacheKeyFromChatRequest (fun _ => "") c7Req "a:b" "v").string.data.count
      ':') = 5 := by
  decide

/-- C7 (amended): the key's hash is exactly 64 lowercase hexadecimal
characters (so splitting never cuts inside the hash), and the key string
contains exactly four `':'` separators — five colon-delimited fields —
provided the trimmed `user_id`, `model` and `version_id` are themselves
colon-free; an identifier containing a colon adds extra fields. -/
theorem C7_key_format (fr : ℚ → String) (req : ChatRequest) (u v : String) :
    (BuildExactCacheKeyFromChatRequest fr req u v).hash.length = 64 ∧
    (∀ c ∈ (BuildExactCacheKeyFromChatRequest fr req u v).hash.data, c ∈ hexChars) ∧
    (':' ∉ (trimSpace u).data → ':' ∉ (trimSpace req.model).data →
      ':' ∉ (trimSpace v).data →
      (BuildExactCacheKeyFromChatRequest fr req u v).string.data.count ':' = 4) := by
  refine ⟨?_, ?_, ?_⟩
  · show (hexEncode (sha256 _)).length = 64
    rw [hexEncode_length, sha256_length]
  · exact hexEncode_mem _
  · intro hu hm hv
    show (("exact:" ++ trimSpace u ++ ":" ++ trimSpace req.model ++ ":" ++ trimSpace v ++
      ":" ++ hexEncode (sha256 _)).data.count ':') = 4
    simp only [String.data_append, List.count_append]
    rw [List.count_eq_zero.mpr hu, List.count_eq_zero.mpr hm, List.count_eq_zero.mpr hv,
      hexEncode_count_colon]
    decide

/-- C7 witness: the amended format facts at a colon-free concrete scoping. -/
theorem C7_key_format_witness :
    (BuildExactCacheKeyFromChatRequest (fun _ => "") c7Req "u1" "v1").hash.length = 64 ∧
    (BuildExactCacheKeyFromChatRequest (fun _ => "") c7Req "u1" "v1").string.data.count
      ':' = 4 :=
  ⟨(C7_key_format (fun _ => "") c7Req "u1" "v1").1,
   (C7_key_format (fun _ => "") c7Req "u1" "v1").2.2 (by decide) (by decide) (by decide)⟩

/-- Modelled from the spec: the canonical serialization of a `ChatRequest`
with fixed field order and an explicit choice of which optional fields
appear — `withTemp := false` is the spec's "request with temperature
unset", and so on for the other `omitempty` fields. -/
def chatRequestJSONFields (fr : ℚ → String) (r : ChatRequest)
    (withTemp withTopP withMax withStop withStream : Bool) : String :=
  "\x7b\"model\":" ++ jsonStr r.model ++ ",\"messages\":" ++ jsonMessages r.messages ++
    (if withTemp then ",\"temperature\":" ++ fr r.temperature else "") ++
    (if withTopP then ",\"top_p\":" ++ fr r.topP else "") ++
    (if withMax then ",\"max_tokens\":" ++ toString r.maxTokens else "") ++
    (if withStop then ",\"stop\":" ++ jsonStrings r.stop else "") ++
    (if withStream then ",\"stream\":true" else "") ++ "\x7d"

/-- The Go encoder emits exactly the optional fields whose value is not the
zero value of its type. -/
theorem marshalChatRequest_eq_fields (fr : ℚ → String) (r : ChatRequest) :
    marshalChatRequest fr r =
      chatRequestJSONFields fr r (r.temperature ≠ 0) (r.topP ≠ 0) (r.maxTokens ≠ 0)
        (r.stop ≠ []) r.stream := by
  unfold marshalChatRequest chatRequestJSONFields tempFragment topPFragment
    maxTokensFragment stopFragment streamFragment
  by_cases h1 : r.temperature = 0 <;> by_cases h2 : r.topP = 0 <;>
    by_cases h3 : r.maxTokens = 0 <;> by_cases h4 : r.stop = [] <;>
    cases hs : r.stream <;> simp [h1, h2, h3, h4]

/-- C9: `omitempty` drops zero values, so a request with `temperature = 0`
serializes byte-identically to the request with temperature unset (and
likewise `top_p = 0`, `max_tokens = 0`, `stream = false`), both in the
body sent upstream and in the bytes hashed for the cache key: the boundary
value 0 is never transmitted, and such request pairs share one cache
entry because the hashed bytes coincide with those of the unset form. -/
theorem C9_omitempty_zero_identical (fr : ℚ → String) (r : ChatRequest) (u v : String) :
    (r.temperature = 0 →
      marshalChatRequest fr r =
        chatRequestJSONFields fr r false (r.topP ≠ 0) (r.maxTokens ≠ 0)
          (r.stop ≠ []) r.stream) ∧
    (r.topP = 0 →
      marshalChatRequest fr r =
        chatRequestJSONFields fr r (r.temperature ≠ 0) false (r.maxTokens ≠ 0)
          (r.stop ≠ []) r.stream) ∧
    (r.maxTokens = 0 →
      marshalChatRequest fr r =
        chatRequestJSONFields fr r (r.temperature ≠ 0) (r.topP ≠ 0) false
          (r.stop ≠ []) r.stream) ∧
    (r.stream = false →
      marshalChatRequest fr r =
        chatRequestJSONFields fr r (r.temperature ≠ 0) (r.topP ≠ 0) (r.maxTokens ≠ 0)
          (r.stop ≠ []) false) ∧
    (∀ s : Bool, marshalProviderChatRequest fr r s =
      marshalChatRequest fr { r with stream := s }) ∧
    (r.temperature = 0 →
      marshalProviderChatRequest fr r false =
        chatRequestJSONFields fr r false (r.topP ≠ 0) (r.maxTokens ≠ 0)
          (r.stop ≠ []) false) ∧
    (r.temperature = 0 →
      (BuildExactCacheKeyFromChatRequest fr r u v).hash =
        hexEncode (sha256 (strBytes ("model:" ++ trimSpace r.model ++ "|body:" ++
          chatRequestJSONFields fr r false (r.topP ≠ 0) (r.maxTokens ≠ 0)
            (r.stop ≠ []) r.stream)))) := by
  have hmain : ∀ h : r.temperature = 0,
      marshalChatRequest fr r =
        chatRequestJSONFields fr r false (r.topP ≠ 0) (r.maxTokens ≠ 0)
          (r.stop ≠ []) r.stream := by
    intro h
    rw [marshalChatRequest_eq_fields]
    simp [h]
  refine ⟨hmain, ?_, ?_, ?_, fun s => rfl, ?_, ?_⟩
  · intro h
    rw [marshalChatRequest_eq_fields]
    simp [h]
  · intro h
    rw [marshalChatRequest_eq_fields]
    simp [h]
  · intro h
    rw [marshalChatRequest_eq_fields]
    simp [h]
  · intro h
    show marshalChatRequest fr { r with stream := false } = _
    rw [marshalChatRequest_eq_fields]
    simp only [h]
    rfl
  · intro h
    show hexEncode (sha256 (strBytes ("model:" ++ trimSpace r.model ++ "|body:" ++
      marshalChatRequest fr r))) = _
    rw [hmain h]

/-- C9 witness: the zero-valued request serializes without any optional
field, the provider body likewise, and the cache hash equals the hash of
the unset-form serialization. -/
theorem C9_omitempty_zero_identical_witness :
    marshalChatRequest (fun _ => "")
        { model := "m", messages := [], temperature := 0, topP := 0, maxTokens := 0,
          stop := [], stream := false } =
      chatRequestJSONFields (fun _ => "")
        { model := "m", messages := [], temperature := 0, topP := 0, maxTokens := 0,
          stop := [], stream := false } false ((0 : ℚ) ≠ 0) ((0 : Int) ≠ 0)
        (([] : List String) ≠ []) false ∧
    (BuildExactCacheKeyFromChatRequest (fun _ => "")
        { model := "m", messages := [], temperature := 0, topP := 0, maxTokens := 0,
          stop := [], stream := false } "u" "v").hash =
      hexEncode (sha256 (strBytes ("model:" ++ trimSpace "m" ++ "|body:" ++
        chatRequestJSONFields (fun _ => "")
          { model := "m", messages := [], temperature := 0, topP := 0, maxTokens := 0,
            stop := [], stream := false } false ((0 : ℚ) ≠ 0) ((0 : Int) ≠ 0)
          (([] : List String) ≠ []) false))) :=
  ⟨(C9_omitempty_zero_identical (fun _ => "") _ "u" "v").1 rfl,
   (C9_omitempty_zero_identical (fun _ => "") _ "u" "v").2.2.2.2.2.2 rfl⟩

/-- Event kind, used to state trace shapes without naming cache keys. -/
def hEventKind : HEvent → Nat
  | .cacheGet _ => 0
  | .llmCall => 1
  | .cacheSet _ => 2

/-- The C1 counterexample request: decodes as JSON but has no model. -/
def c1Req : ChatRequest :=
  { model := "", messages := [{ role := "user", content := "x" }], temperature := 0,
    topP := 0, maxTokens := 0, stop := [], stream := false }

/-- C1 counterexample: for the model-less request the handler answers 502
`upstream_error` — not 400 `invalid_json` — and its event trace is a cache
lookup followed by a call into the LLM client, so the lookup is performed
and the client is invoked before the request is rejected. -/
theorem C1_validation_rejection_counterexample :
    (handleNonStream (fun _ => "") (fun _ => (none, false, none)) (fun _ => none)
        (fun _ => none) (.inl .upstream) c1Req "" "vtest").status = 502 ∧
    (handleNonStream (fun _ => "") (fun _ => (none, false, none)) (fun _ => none)
        (fun _ => none) (.inl .upstream) c1Req "" "vtest").body =
      .errorCode "upstream_error" ∧
    (handleNonStream (fun _ => "") (fun _ => (none, false, none)) (fun _ => none)
        (fun _ => none) (.inl .upstream) c1Req "" "vtest").events.map hEventKind =
      [0, 1] := by
  refine ⟨rfl, rfl, rfl⟩

/-- C1 (amended): for every non-streaming request that decodes as JSON but
fails validation, the handler first performs the cache lookup; on a miss
it invokes the LLM client, which rejects the request during validation, so
no HTTP exchange can occur — the outcome is independent of the dispatch
result — and the handler responds 502 with body `{"error":"upstream_error"}`,
not 400. -/
theorem C1_invalid_request_goes_upstream_path (fr : ℚ → String)
    (get : String → Option (List Nat) × Bool × Option Unit)
    (unm : Option (List Nat) → Option ChatResponse)
    (mar : ChatResponse → Option (List Nat))
    (dispatch dispatch' : ClientErr ⊕ ChatResponse)
    (req : ChatRequest) (uh vh : String) (e : ValidateErr)
    (hv : req.Validate = some e)
    (hmiss : (get ((BuildExactCacheKeyFromChatRequest fr req
        (if uh = "" then "anon" else uh) (if vh = "" then "v1" else vh)).string)).2.1 =
      false) :
    handleNonStream fr get unm mar dispatch req uh vh =
      { status := 502, body := .errorCode "upstream_error",
        events := [.cacheGet ((BuildExactCacheKeyFromChatRequest fr req
            (if uh = "" then "anon" else uh) (if vh = "" then "v1" else vh)).string),
          .llmCall] } ∧
    handleNonStream fr get unm mar dispatch req uh vh =
      handleNonStream fr get unm mar dispatch' req uh vh := by
  have hclient : ∀ d : ClientErr ⊕ ChatResponse,
      clientChatCompletion fr d (some req) = .inl (.invalidRequest e) := by
    intro d
    unfold clientChatCompletion
    dsimp only
    rw [hv]
  have key : ∀ d : ClientErr ⊕ ChatResponse,
      handleNonStream fr get unm mar d req uh vh =
        { status := 502, body := .errorCode "upstream_error",
          events := [.cacheGet ((BuildExactCacheKeyFromChatRequest fr req
              (if uh = "" then "anon" else uh) (if vh = "" then "v1" else vh)).string),
            .llmCall] } := by
    intro d
    unfold handleNonStream
    dsimp only
    rw [hmiss]
    simp only [Bool.false_eq_true, if_false]
    rw [hclient d]
  exact ⟨key dispatch, (key dispatch).trans (key dispatch').symm⟩

/-- C1 witness: the amended statement at the concrete model-less request
with an empty cache. -/
theorem C1_invalid_request_goes_upstream_path_witness :
    handleNonStream (fun _ => "") (fun _ => (none, false, none)) (fun _ => none)
        (fun _ => none) (.inl .upstream) c1Req "" "" =
      { status := 502, body := .errorCode "upstream_error",
        events := [.cacheGet ((BuildExactCacheKeyFromChatRequest (fun _ => "") c1Req
            (if ("" : String) = "" then "anon" else "")
            (if ("" : String) = "" then "v1" else "")).string),
          .llmCall] } :=
  (C1_invalid_request_goes_upstream_path (fun _ => "") (fun _ => (none, false, none))
    (fun _ => none) (fun _ => none) (.inl .upstream) (.inl .upstream) c1Req "" ""
    .modelRequired (by decide) rfl).1
